import Mathlib

/-!
Verification development for the registry synchronization and code-generation
engine of the mexty CLI (`src/commands/sync.ts`).

The embedding below models, faithfully to the TypeScript source:
  * the registry data model (`BlockRegistryEntry`, `BlockRegistry`,
    `AuthorNamespaceRegistry`) — JS objects are modelled as association
    lists in insertion order, `undefined`-able fields as `Option`;
  * the textual content generation of `generateNamedExports` and
    `generateAuthorEntryFiles` (the template literals of sync.ts, with the
    two `new Date().toISOString()` call results passed in as explicit
    string parameters, since the clock is an effect);
  * the filesystem effects of a sync run, over an abstract filesystem
    modelled as an association list from paths (lists of path segments)
    to file contents; directories are implicit (only files are tracked),
    and `rmSync(recursive)` + `mkdirSync` of the authors directory is
    modelled as a single purge step;
  * the orchestration of `syncCommand` after a successful fetch: the
    fetched `registry`/`authorRegistry` are inputs, and the result of
    `findMextBlockPath` (which probes `process.cwd()`-relative candidate
    directories for a matching `package.json`, an environment-dependent
    search) is passed in as an `Option Path` parameter — `none` models
    the case where no candidate directory holds a matching descriptor.

JS string semantics used by the source and modelled here:
  * `s.replace(/'/g, "\\'")` replaces every single quote by
    backslash-quote (`escapeSQ`);
  * `s.includes(t)` is substring containment (`containsSub`);
  * `x ? a : b` on an optional string is truthy iff present and nonempty;
  * `tags?.join(', ') || 'none'` yields "none" when `tags` is absent or
    the join is empty.

Target-language (TypeScript) semantics needed to state claims about the
generated code's validity are modelled separately: `isValidJsIdent` is a
(ASCII-simplified) identifier check, and `parseSQLit` parses a
single-quoted string literal with the usual escape rules (raw line
terminators are not permitted inside a literal; `\x5cc` denotes `c`
itself for non-special `c`).
-/

/-- A single registry entry, as in the `BlockRegistryEntry` interface of
sync.ts.  Optional fields of the interface become `Option`. -/
structure BlockRegistryEntry where
  blockId : String
  componentName : String
  author : Option String
  title : String
  description : String
  version : Option String
  tags : Option (List String)
  lastUpdated : String
deriving Repr, DecidableEq

/-- `BlockRegistry`: a JS object keyed by component name, modelled as an
association list in insertion order (the order `Object.entries` yields). -/
abbrev BlockRegistry : Type := List (String × BlockRegistryEntry)

/-- `AuthorNamespaceRegistry`: author name ↦ nested component map. -/
abbrev AuthorNamespaceRegistry : Type := List (String × List (String × BlockRegistryEntry))

/-- `s.replace(/'/g, "\\'")` of sync.ts: every single-quote character is
replaced by backslash followed by single quote; nothing else changes. -/
def escapeSQ : List Char → List Char
  | [] => []
  | c :: r => if c = '\'' then '\\' :: '\'' :: escapeSQ r else c :: escapeSQ r

/-- String-level wrapper of `escapeSQ`. -/
def escapeSQStr (s : String) : String := String.mk (escapeSQ s.data)

/-- Prefix test on lists (used both for substring search on characters and
path-prefix tests on path segments). -/
def prefixOfL {α : Type} [DecidableEq α] : List α → List α → Bool
  | [], _ => true
  | _ :: _, [] => false
  | a :: as, b :: bs => if a = b then prefixOfL as bs else false

/-- JS `hay.includes(needle)`: does `needle` occur as a contiguous
subsequence of `hay`?  First argument is the needle. -/
def containsSub {α : Type} [DecidableEq α] (needle : List α) : List α → Bool
  | [] => prefixOfL needle []
  | c :: rest => prefixOfL needle (c :: rest) || containsSub needle rest

/-- `entry.author ? ` (by ${entry.author})` : ''` — the author byline of a
generated comment; JS truthiness makes the empty string behave like absence. -/
def authorBySuffix : Option String → String
  | none => ""
  | some a => if a = "" then "" else " (by " ++ a ++ ")"

/-- `entry.author || ''`. -/
def authorOrEmpty : Option String → String
  | none => ""
  | some a => a

/-- `entry.tags?.join(', ') || 'none'` — the `// Tags:` comment text. -/
def tagsComment : Option (List String) → String
  | none => "none"
  | some l =>
    let j := String.intercalate ", " l
    if j = "" then "none" else j

/-- `[${entry.tags?.map(tag => `'${tag}'`).join(', ') || ''}]` — the tags
array literal in generated metadata. -/
def tagsArray : Option (List String) → String
  | none => "[]"
  | some l => "[" ++ String.intercalate ", " (l.map (fun t => "\x27" ++ t ++ "\x27")) ++ "]"

/-- One block of the `GLOBAL NAMESPACE COMPONENTS` section of
`namedExports.ts` (sync.ts lines 146–150): four comment lines and the
`export const` binding, interpolating the raw component name twice. -/
def globalEntryBlock (n : String) (e : BlockRegistryEntry) : String :=
  "// " ++ e.title ++ authorBySuffix e.author ++
  "\n// Block ID: " ++ e.blockId ++
  "\n// Description: " ++ e.description ++
  "\n// Tags: " ++ tagsComment e.tags ++
  "\nexport const " ++ n ++ " = createNamedBlock(\x27" ++ n ++ "\x27);"

/-- One per-component object of `registryMetadata.components` in
`namedExports.ts` (sync.ts lines 169–176). -/
def globalComponentMeta (n : String) (e : BlockRegistryEntry) : String :=
  "    " ++ n ++ ": \x7b\n      blockId: \x27" ++ e.blockId ++
  "\x27,\n      title: \x27" ++ e.title ++
  "\x27,\n      description: \x27" ++ escapeSQStr e.description ++
  "\x27,\n      author: \x27" ++ authorOrEmpty e.author ++
  "\x27,\n      tags: " ++ tagsArray e.tags ++
  ",\n      lastUpdated: \x27" ++ e.lastUpdated ++
  "\x27\n    \x7d,"

/-- One per-component object of `registryMetadata.authors.<author>` in
`namedExports.ts` (sync.ts lines 183–189): like `globalComponentMeta` but
deeper indentation and no `author` field. -/
def globalAuthorNestedMeta (n : String) (e : BlockRegistryEntry) : String :=
  "      " ++ n ++ ": \x7b\n        blockId: \x27" ++ e.blockId ++
  "\x27,\n        title: \x27" ++ e.title ++
  "\x27,\n        description: \x27" ++ escapeSQStr e.description ++
  "\x27,\n        tags: " ++ tagsArray e.tags ++
  ",\n        lastUpdated: \x27" ++ e.lastUpdated ++
  "\x27\n      \x7d,"

/-- One per-author object of `registryMetadata.authors` (sync.ts 181–191). -/
def globalAuthorMeta (author : String) (comps : List (String × BlockRegistryEntry)) : String :=
  "    " ++ author ++ ": \x7b\n" ++
  String.intercalate "\n" (comps.map (fun p => globalAuthorNestedMeta p.1 p.2)) ++
  "\n    \x7d,"

/-- The full content of the generated `namedExports.ts` (the template
literal of sync.ts lines 136–195).  `t1` and `t2` are the results of the
two `new Date().toISOString()` calls (header comment and
`lastGenerated`), passed explicitly. -/
def namedExportsContent (reg : BlockRegistry) (areg : AuthorNamespaceRegistry)
    (t1 t2 : String) : String :=
  "// Auto-generated file - DO NOT EDIT MANUALLY\n// Generated on: " ++ t1 ++
  "\n// Total components: " ++ toString reg.length ++
  "\n// Total authors: " ++ toString areg.length ++
  "\n\nimport \x7b createNamedBlock \x7d from \x27./components/NamedBlock\x27;\nimport \x7b createAuthorBlock \x7d from \x27./components/AuthorBlock\x27;\n\n// ===== GLOBAL NAMESPACE COMPONENTS =====\n" ++
  String.intercalate "\n\n" (reg.map (fun p => globalEntryBlock p.1 p.2)) ++
  "\n\n// Export all global components as an object for convenience\nexport const NamedComponents = \x7b\n" ++
  String.intercalate "\n" (reg.map (fun p => "  " ++ p.1 ++ ",")) ++
  "\n\x7d;\n\n// Note: Author-specific components are now available via direct imports:\n// import \x7b ComponentName \x7d from \x27@mexty/block/authorname\x27\n// Available authors: " ++
  String.intercalate ", " (areg.map (fun p => p.1)) ++
  "\n\n// Registry metadata\nexport const registryMetadata = \x7b\n  totalComponents: " ++ toString reg.length ++
  ",\n  totalAuthors: " ++ toString areg.length ++
  ",\n  lastGenerated: \x27" ++ t2 ++
  "\x27,\n  components: \x7b\n" ++
  String.intercalate "\n" (reg.map (fun p => globalComponentMeta p.1 p.2)) ++
  "\n  \x7d,\n  authors: \x7b\n" ++
  String.intercalate "\n" (areg.map (fun p => globalAuthorMeta p.1 p.2)) ++
  "\n  \x7d\n\x7d;\n"

/-- One component block of an author entry file (sync.ts lines 248–252). -/
def authorEntryBlock (author n : String) (e : BlockRegistryEntry) : String :=
  "// " ++ e.title ++
  "\n// Block ID: " ++ e.blockId ++
  "\n// Description: " ++ e.description ++
  "\n// Tags: " ++ tagsComment e.tags ++
  "\nexport const " ++ n ++ " = createAuthorBlock(\x27" ++ author ++ "\x27, \x27" ++ n ++ "\x27);"

/-- One per-component object of `authorMetadata.components` in an author
entry file (sync.ts lines 267–273). -/
def authorComponentMeta (n : String) (e : BlockRegistryEntry) : String :=
  "    " ++ n ++ ": \x7b\n      blockId: \x27" ++ e.blockId ++
  "\x27,\n      title: \x27" ++ e.title ++
  "\x27,\n      description: \x27" ++ escapeSQStr e.description ++
  "\x27,\n      tags: " ++ tagsArray e.tags ++
  ",\n      lastUpdated: \x27" ++ e.lastUpdated ++
  "\x27\n    \x7d,"

/-- The full content of one author's `index.ts` (the template literal of
sync.ts lines 241–277); `t1`, `t2` are the two timestamp call results. -/
def authorEntryContent (author : String) (comps : List (String × BlockRegistryEntry))
    (t1 t2 : String) : String :=
  "// Auto-generated author entry file for " ++ author ++ "\n// Generated on: " ++ t1 ++
  "\n// Total components: " ++ toString comps.length ++
  "\n\nimport \x7b createAuthorBlock \x7d from \x27../../components/AuthorBlock\x27;\n\n" ++
  String.intercalate "\n\n" (comps.map (fun p => authorEntryBlock author p.1 p.2)) ++
  "\n\n// Export all components as default for convenience\nexport default \x7b\n" ++
  String.intercalate "\n" (comps.map (fun p => "  " ++ p.1 ++ ",")) ++
  "\n\x7d;\n\n// Author metadata\nexport const authorMetadata = \x7b\n  author: \x27" ++ author ++
  "\x27,\n  totalComponents: " ++ toString comps.length ++
  ",\n  lastGenerated: \x27" ++ t2 ++
  "\x27,\n  components: \x7b\n" ++
  String.intercalate "\n" (comps.map (fun p => authorComponentMeta p.1 p.2)) ++
  "\n  \x7d\n\x7d;\n"

/-- A filesystem path, as a list of path segments. -/
abbrev FsPath : Type := List String

/-- An abstract filesystem: an association list from paths to file
contents.  Directories are implicit. -/
abbrev Fs : Type := List (FsPath × String)

/-- `fs.existsSync(p)` for a file path. -/
def fileExists (fs : Fs) (p : FsPath) : Bool :=
  fs.any (fun e => decide (e.1 = p))

/-- `fs.readFileSync(p, 'utf8')`, as an `Option`. -/
def readFile (fs : Fs) (p : FsPath) : Option String :=
  (fs.find? (fun e => decide (e.1 = p))).map (fun e => e.2)

/-- `fs.writeFileSync(p, c)`: overwrite the file if present, create it
otherwise. -/
def writeFileSync (fs : Fs) (p : FsPath) (c : String) : Fs :=
  if fileExists fs p then fs.map (fun e => if e.1 = p then (p, c) else e)
  else fs ++ [(p, c)]

/-- The exact substring `generateNamedExports` searches the entry point
for: `indexContent.includes("export * from './namedExports'")`. -/
def exportNeedle : String := "export * from \x27./namedExports\x27"

/-- The text appended to the entry point when the needle is absent
(sync.ts line 213). -/
def indexAppendix : String := "\n// Auto-generated named exports\nexport * from \x27./namedExports\x27;\n"

/-- The entry-point patch step of the Materializer on the content of
`src/index.ts` (sync.ts lines 209–215): append the re-export block iff
the file does not already contain the needle. -/
def patchIndexContent (c : String) : String :=
  if containsSub exportNeedle.data c.data then c else c ++ indexAppendix

/-- Write events of one sync run, in the order they are performed. -/
inductive WriteEvent where
  | writeGlobalExports
  | patchEntryPoint
  | purgeAuthorsDir
  | writeAuthorEntry (author : String)
deriving Repr, DecidableEq

/-- Path of the generated global exports file under the located package. -/
def namedExportsPath (root : FsPath) : FsPath := root ++ ["src", "namedExports.ts"]

/-- Path of the hand-maintained entry point under the located package. -/
def indexPath (root : FsPath) : FsPath := root ++ ["src", "index.ts"]

/-- Path prefix of the generated authors directory. -/
def authorsDirPath (root : FsPath) : FsPath := root ++ ["src", "authors"]

/-- Path of one author's generated entry file. -/
def authorEntryPath (root : FsPath) (author : String) : FsPath :=
  root ++ ["src", "authors", author, "index.ts"]

/-- Is `p` a file path inside the authors directory? -/
def underAuthors (root : FsPath) (p : FsPath) : Bool :=
  prefixOfL (authorsDirPath root) p

/-- Filesystem effect of `generateNamedExports` (sync.ts lines 132–217):
unconditionally write `src/namedExports.ts`, then, if `src/index.ts`
exists and does not yet contain `exportNeedle`, append `indexAppendix`
to it.  Returns the new filesystem and the write events in order. -/
def generateNamedExportsFS (root : FsPath) (reg : BlockRegistry)
    (areg : AuthorNamespaceRegistry) (t1 t2 : String) (fs : Fs) :
    Fs × List WriteEvent :=
  let fs1 := writeFileSync fs (namedExportsPath root) (namedExportsContent reg areg t1 t2)
  match readFile fs1 (indexPath root) with
  | none => (fs1, [WriteEvent.writeGlobalExports])
  | some c =>
    if containsSub exportNeedle.data c.data then (fs1, [WriteEvent.writeGlobalExports])
    else (writeFileSync fs1 (indexPath root) (c ++ indexAppendix),
          [WriteEvent.writeGlobalExports, WriteEvent.patchEntryPoint])

/-- Filesystem effect of `generateAuthorEntryFiles` (sync.ts lines
222–284): remove everything under `src/authors` (`rmSync` recursive, and
recreate the directory), then write one `index.ts` per author of the
author registry, in registry order. -/
def generateAuthorEntryFilesFS (root : FsPath) (areg : AuthorNamespaceRegistry)
    (t1 t2 : String) (fs : Fs) : Fs × List WriteEvent :=
  let fs1 := fs.filter (fun e => !(underAuthors root e.1))
  let fs2 := areg.foldl
    (fun acc p => writeFileSync acc (authorEntryPath root p.1) (authorEntryContent p.1 p.2 t1 t2))
    fs1
  (fs2, WriteEvent.purgeAuthorsDir :: areg.map (fun p => WriteEvent.writeAuthorEntry p.1))

/-- Outcome of one sync run (after a successful fetch). -/
structure SyncResult where
  fs : Fs
  events : List WriteEvent
  ok : Bool
  reportedEmpty : Bool
  codegenSkipped : Bool
deriving Repr

/-- The orchestration of `syncCommand` after the registry has been
fetched (sync.ts lines 50–94): if the global registry is empty, report
and return; otherwise, if `findMextBlockPath` found no package
(`mextBlockPath = none`), report that codegen is skipped and succeed;
otherwise run `generateNamedExports` then `generateAuthorEntryFiles`.
`t` stands in for the wall-clock timestamps. -/
def syncModel (reg : BlockRegistry) (areg : AuthorNamespaceRegistry)
    (mextBlockPath : Option FsPath) (fs : Fs) (t : String) : SyncResult :=
  if reg.length = 0 then
    { fs := fs, events := [], ok := true, reportedEmpty := true, codegenSkipped := false }
  else
    match mextBlockPath with
    | none =>
      { fs := fs, events := [], ok := true, reportedEmpty := false, codegenSkipped := true }
    | some root =>
      let r1 := generateNamedExportsFS root reg areg t t fs
      let r2 := generateAuthorEntryFilesFS root areg t t r1.1
      { fs := r2.1, events := r1.2 ++ r2.2, ok := true,
        reportedEmpty := false, codegenSkipped := false }

/-- Identifier validity in the target language (TypeScript), simplified
to ASCII identifiers: a nonempty string whose first character is a
letter, underscore or dollar sign, and whose remaining characters are
letters, digits, underscores or dollar signs. -/
def isIdentStart (c : Char) : Bool := c.isAlpha || c = '_' || c = '$'

/-- Continuation characters of a TypeScript identifier (ASCII). -/
def isIdentCont (c : Char) : Bool := c.isAlphanum || c = '_' || c = '$'

/-- Validity check for a generated identifier. -/
def isValidJsIdent (s : String) : Bool :=
  match s.data with
  | [] => false
  | c :: rest => isIdentStart c && rest.all isIdentCont

/-- Value of a single escape character in a TypeScript single-quoted
string literal: `\x5cn` is a newline, `\x5ct` a tab, `\x5cr` a carriage
return, and any other escaped character denotes itself. -/
def unescChar (c : Char) : Char :=
  if c = 'n' then '\n' else if c = 't' then '\t' else if c = 'r' then '\r' else c

/-- Parse the body of a TypeScript single-quoted string literal: the
characters after the opening quote.  Succeeds iff the body consists of
escape sequences and ordinary characters (raw newlines and carriage
returns are not permitted) followed by a closing quote that ends the
input, and returns the denoted character sequence. -/
def parseSQBody : List Char → Option (List Char)
  | [] => none
  | [c] => if c = '\'' then some [] else none
  | c :: d :: rest =>
    if c = '\'' then none
    else if c = '\\' then (parseSQBody rest).map (fun t => unescChar d :: t)
    else if c = '\n' || c = '\r' then none
    else (parseSQBody (d :: rest)).map (fun t => c :: t)

/-- Parse a full TypeScript single-quoted string literal. -/
def parseSQLit (l : List Char) : Option (List Char) :=
  match l with
  | c :: body => if c = '\'' then parseSQBody body else none
  | [] => none

/-- Everything `namedExportsContent` emits before the first timestamp. -/
def nePre : String := "// Auto-generated file - DO NOT EDIT MANUALLY\n// Generated on: "

/-- Everything `namedExportsContent` emits between the two timestamps;
depends only on the registry snapshot. -/
def neMid (reg : BlockRegistry) (areg : AuthorNamespaceRegistry) : String :=
  "\n// Total components: " ++ toString reg.length ++
  "\n// Total authors: " ++ toString areg.length ++
  "\n\nimport \x7b createNamedBlock \x7d from \x27./components/NamedBlock\x27;\nimport \x7b createAuthorBlock \x7d from \x27./components/AuthorBlock\x27;\n\n// ===== GLOBAL NAMESPACE COMPONENTS =====\n" ++
  String.intercalate "\n\n" (reg.map (fun p => globalEntryBlock p.1 p.2)) ++
  "\n\n// Export all global components as an object for convenience\nexport const NamedComponents = \x7b\n" ++
  String.intercalate "\n" (reg.map (fun p => "  " ++ p.1 ++ ",")) ++
  "\n\x7d;\n\n// Note: Author-specific components are now available via direct imports:\n// import \x7b ComponentName \x7d from \x27@mexty/block/authorname\x27\n// Available authors: " ++
  String.intercalate ", " (areg.map (fun p => p.1)) ++
  "\n\n// Registry metadata\nexport const registryMetadata = \x7b\n  totalComponents: " ++ toString reg.length ++
  ",\n  totalAuthors: " ++ toString areg.length ++
  ",\n  lastGenerated: \x27"

/-- Everything `namedExportsContent` emits after the second timestamp;
depends only on the registry snapshot. -/
def nePost (reg : BlockRegistry) (areg : AuthorNamespaceRegistry) : String :=
  "\x27,\n  components: \x7b\n" ++
  String.intercalate "\n" (reg.map (fun p => globalComponentMeta p.1 p.2)) ++
  "\n  \x7d,\n  authors: \x7b\n" ++
  String.intercalate "\n" (areg.map (fun p => globalAuthorMeta p.1 p.2)) ++
  "\n  \x7d\n\x7d;\n"

/-- Everything `authorEntryContent` emits before the first timestamp. -/
def aePre (author : String) : String :=
  "// Auto-generated author entry file for " ++ author ++ "\n// Generated on: "

/-- Everything `authorEntryContent` emits between the two timestamps. -/
def aeMid (author : String) (comps : List (String × BlockRegistryEntry)) : String :=
  "\n// Total components: " ++ toString comps.length ++
  "\n\nimport \x7b createAuthorBlock \x7d from \x27../../components/AuthorBlock\x27;\n\n" ++
  String.intercalate "\n\n" (comps.map (fun p => authorEntryBlock author p.1 p.2)) ++
  "\n\n// Export all components as default for convenience\nexport default \x7b\n" ++
  String.intercalate "\n" (comps.map (fun p => "  " ++ p.1 ++ ",")) ++
  "\n\x7d;\n\n// Author metadata\nexport const authorMetadata = \x7b\n  author: \x27" ++ author ++
  "\x27,\n  totalComponents: " ++ toString comps.length ++
  ",\n  lastGenerated: \x27"

/-- Everything `authorEntryContent` emits after the second timestamp. -/
def aePost (comps : List (String × BlockRegistryEntry)) : String :=
  "\x27,\n  components: \x7b\n" ++
  String.intercalate "\n" (comps.map (fun p => authorComponentMeta p.1 p.2)) ++
  "\n  \x7d\n\x7d;\n"

/-- Does the run patch the entry point?  True iff `src/index.ts` exists
(after the global exports write) and does not yet contain the re-export
needle. -/
def patchNeeded (root : FsPath) (reg : BlockRegistry) (areg : AuthorNamespaceRegistry)
    (t : String) (fs : Fs) : Bool :=
  match readFile (writeFileSync fs (namedExportsPath root) (namedExportsContent reg areg t t))
      (indexPath root) with
  | none => false
  | some c => !containsSub exportNeedle.data c.data

/-- A small concrete registry entry used in concrete evaluations. -/
def exEntry : BlockRegistryEntry :=
  { blockId := "b1", componentName := "Widget", author := none, title := "W",
    description := "d", version := none, tags := none, lastUpdated := "2024" }

/-- A one-component global registry. -/
def exReg : BlockRegistry := [("Widget", exEntry)]

/-- An author registry holding only `alice`. -/
def exARegAlice : AuthorNamespaceRegistry := [("alice", [("Widget", exEntry)])]

/-- The entry with the invalid component name from the spec's test. -/
def exBadEntry : BlockRegistryEntry :=
  { blockId := "b", componentName := "123Bad-Name", author := none, title := "T",
    description := "d", version := none, tags := none, lastUpdated := "x" }

/-- An entry whose title contains a single quote (all other fields empty). -/
def exTitleQuoteEntry : BlockRegistryEntry :=
  { blockId := "", componentName := "X", author := none, title := "a\x27b",
    description := "", version := none, tags := none, lastUpdated := "" }

theorem strAppendAssoc (a b c : String) : a ++ b ++ c = a ++ (b ++ c) :=
  congrArg String.mk (List.append_assoc a.data b.data c.data)

theorem containsSub_append_of_right {α : Type} [DecidableEq α] (n ys : List α)
    (xs : List α) (h : containsSub n ys = true) : containsSub n (xs ++ ys) = true := by
  induction xs with
  | nil => exact h
  | cons x xs ih => simp [containsSub, ih]

theorem mem_writeFileSync (fs : Fs) (p q : FsPath) (x : String) :
    (∃ c, (q, c) ∈ writeFileSync fs p x) ↔ (∃ c, (q, c) ∈ fs) ∨ q = p := by
  unfold writeFileSync
  by_cases h : fileExists fs p = true
  · rw [if_pos h]
    constructor
    · rintro ⟨c, hc⟩
      rw [List.mem_map] at hc
      obtain ⟨e, he, heq⟩ := hc
      by_cases hep : e.1 = p
      · right
        rw [if_pos hep] at heq
        exact (congrArg Prod.fst heq).symm
      · left
        rw [if_neg hep] at heq
        exact ⟨c, heq ▸ he⟩
    · intro hor
      by_cases hqp : q = p
      · subst hqp
        unfold fileExists at h
        rw [List.any_eq_true] at h
        obtain ⟨e, he, hdec⟩ := h
        rw [decide_eq_true_eq] at hdec
        refine ⟨x, ?_⟩
        rw [List.mem_map]
        exact ⟨e, he, by rw [if_pos hdec]⟩
      · rcases hor with ⟨c, hc⟩ | hq
        · refine ⟨c, ?_⟩
          rw [List.mem_map]
          refine ⟨(q, c), hc, ?_⟩
          rw [if_neg (by simpa using hqp)]
        · exact absurd hq hqp
  · rw [if_neg h]
    constructor
    · rintro ⟨c, hc⟩
      rw [List.mem_append] at hc
      rcases hc with hc | hc
      · exact Or.inl ⟨c, hc⟩
      · simp at hc
        exact Or.inr hc.1
    · intro hor
      rcases hor with ⟨c, hc⟩ | hq
      · exact ⟨c, by rw [List.mem_append]; exact Or.inl hc⟩
      · subst hq
        exact ⟨x, by rw [List.mem_append]; simp⟩

theorem mem_foldl_write (root : FsPath) (t1 t2 : String)
    (l : AuthorNamespaceRegistry) (acc : Fs) (q : FsPath) :
    (∃ c, (q, c) ∈ l.foldl
      (fun a p => writeFileSync a (authorEntryPath root p.1) (authorEntryContent p.1 p.2 t1 t2))
      acc) ↔
    (∃ c, (q, c) ∈ acc) ∨ ∃ a ∈ l.map Prod.fst, q = authorEntryPath root a := by
  induction l generalizing acc with
  | nil => simp
  | cons hd tl ih =>
    simp only [List.foldl_cons]
    rw [ih, mem_writeFileSync]
    simp only [List.map_cons, List.mem_cons]
    constructor
    · rintro (⟨he | hq⟩ | ⟨a, ha, hqa⟩)
      · exact Or.inl he
      · exact Or.inr ⟨hd.1, Or.inl rfl, hq⟩
      · exact Or.inr ⟨a, Or.inr ha, hqa⟩
    · rintro (he | ⟨a, (rfl | ha), hqa⟩)
      · exact Or.inl (Or.inl he)
      · exact Or.inl (Or.inr hqa)
      · exact Or.inr ⟨a, ha, hqa⟩

/-- C8: with an empty global registry (and empty author registry) the run
returns successfully right after reporting, with no code-generation
writes and the filesystem untouched, for any package location outcome. -/
theorem empty_registry_no_writes (path : Option FsPath) (fs : Fs) (t : String) :
    syncModel [] [] path fs t =
      { fs := fs, events := [], ok := true, reportedEmpty := true,
        codegenSkipped := false } := rfl

/-- C10: when the global registry is empty, the run returns before any
materialization even if the author registry is non-empty: no events, the
filesystem (including stale author files) is untouched, and no patching
occurs. -/
theorem empty_registry_skips_materialization (areg : AuthorNamespaceRegistry)
    (path : Option FsPath) (fs : Fs) (t : String) (h : areg ≠ []) :
    syncModel [] areg path fs t =
      { fs := fs, events := [], ok := true, reportedEmpty := true,
        codegenSkipped := false } := rfl

/-- A filesystem holding one stale generated file for author `bob`. -/
def exStaleBobFs : Fs := [(["mext-block", "src", "authors", "bob", "index.ts"], "stale")]

/-- Witness for C10 at a concrete non-empty author registry and a stale
`bob` file: the run leaves the stale file on disk and writes nothing. -/
theorem empty_registry_skips_materialization_witness :
    syncModel [] [("bob", [])] none exStaleBobFs "T" =
      { fs := exStaleBobFs, events := [], ok := true, reportedEmpty := true,
        codegenSkipped := false } :=
  empty_registry_skips_materialization [("bob", [])] none exStaleBobFs "T" (by decide)

/-- C9: when no candidate directory holds a matching package descriptor
(`findMextBlockPath` returns null), materialization is skipped entirely,
no files are written, and the run still succeeds, reported distinctly
(`codegenSkipped`). -/
theorem missing_package_skips_codegen (reg : BlockRegistry)
    (areg : AuthorNamespaceRegistry) (fs : Fs) (t : String) (h : reg ≠ []) :
    syncModel reg areg none fs t =
      { fs := fs, events := [], ok := true, reportedEmpty := false,
        codegenSkipped := true } := by
  unfold syncModel
  rw [if_neg ((not_congr List.length_eq_zero).mpr h)]

/-- Witness for C9 at a concrete non-empty registry. -/
theorem missing_package_skips_codegen_witness :
    syncModel exReg exARegAlice none [] "T" =
      { fs := [], events := [], ok := true, reportedEmpty := false,
        codegenSkipped := true } :=
  missing_package_skips_codegen exReg exARegAlice [] "T" (by decide)

/-- C4: the entry-point patch step is idempotent, and it appends the
re-export block exactly when the needle is absent, leaving the file
untouched otherwise. -/
theorem patch_entry_point_idempotent (s : String) :
    patchIndexContent (patchIndexContent s) = patchIndexContent s ∧
    patchIndexContent s =
      (if containsSub exportNeedle.data s.data then s else s ++ indexAppendix) := by
  refine ⟨?_, rfl⟩
  by_cases h : containsSub exportNeedle.data s.data = true
  · have h1 : patchIndexContent s = s := by unfold patchIndexContent; rw [if_pos h]
    rw [h1, h1]
  · have h1 : patchIndexContent s = s ++ indexAppendix := by
      unfold patchIndexContent; rw [if_neg h]
    rw [h1]
    unfold patchIndexContent
    rw [if_pos]
    have hd : (s ++ indexAppendix).data = s.data ++ indexAppendix.data := rfl
    rw [hd]
    exact containsSub_append_of_right _ _ _ (by decide)

/-- C3: generated content is a pure function of the snapshot except for
the two embedded timestamp fields: both generated file kinds factor as
snapshot-only text around the interpolated timestamps, so two syntheses
from the same snapshot differ at most in the timestamp fields. -/
theorem synthesis_deterministic_modulo_timestamp (reg : BlockRegistry)
    (areg : AuthorNamespaceRegistry) (author : String)
    (comps : List (String × BlockRegistryEntry)) (t1 t2 : String) :
    namedExportsContent reg areg t1 t2 =
      nePre ++ t1 ++ neMid reg areg ++ t2 ++ nePost reg areg ∧
    authorEntryContent author comps t1 t2 =
      aePre author ++ t1 ++ aeMid author comps ++ t2 ++ aePost comps := by
  constructor <;>
    simp only [namedExportsContent, authorEntryContent, nePre, neMid, nePost,
      aePre, aeMid, aePost, strAppendAssoc]

/-- C2 (amended): the single escaping routine the generator owns — the one
applied to `description` fields in metadata — replaces exactly the
single-quote characters by backslash-quote and leaves every other
character (newlines, backslashes, Unicode) unchanged. -/
theorem escapeSQ_eq_flatMap (s : List Char) :
    escapeSQ s = s.flatMap (fun c => if c = '\'' then ['\\', '\''] else [c]) := by
  induction s with
  | nil => rfl
  | cons c r ih =>
    by_cases h : c = '\''
    · subst h; simp [escapeSQ, ih]
    · simp [escapeSQ, h, ih]

/-- Counterexample to C2 as stated: the quote-escaping routine is applied
to descriptions (first conjunct) but a title containing a quote is
embedded verbatim in the generated metadata, unescaped (third conjunct),
and the routine leaves a literal newline unescaped (second conjunct). -/
theorem escaping_not_uniform_cex :
    escapeSQStr "a\x27b" = "a\x5c\x27b" ∧
    escapeSQStr (String.mk ['a', '\n', 'b']) = String.mk ['a', '\n', 'b'] ∧
    globalComponentMeta "X" exTitleQuoteEntry =
      "    X: \x7b\n      blockId: \x27\x27,\n      title: \x27a\x27b\x27,\n      description: \x27\x27,\n      author: \x27\x27,\n      tags: [],\n      lastUpdated: \x27\x27\n    \x7d," := by
  refine ⟨rfl, rfl, rfl⟩

/-- C1: the code performs no identifier validation.  With the spec's
`componentName = "123Bad-Name"` (an invalid TypeScript identifier, first
conjunct) the run still succeeds and writes files (second and third
conjuncts), and the generated export line embeds the invalid identifier
verbatim, producing syntactically invalid code (fourth conjunct). -/
theorem sync_invalid_identifier_emitted :
    isValidJsIdent "123Bad-Name" = false ∧
    (syncModel [("123Bad-Name", exBadEntry)] [] (some ["mext-block"]) [] "T").ok = true ∧
    (syncModel [("123Bad-Name", exBadEntry)] [] (some ["mext-block"]) [] "T").events =
      [WriteEvent.writeGlobalExports, WriteEvent.purgeAuthorsDir] ∧
    globalEntryBlock "123Bad-Name" exBadEntry =
      "// T\n// Block ID: b\n// Description: d\n// Tags: none\nexport const 123Bad-Name = createNamedBlock(\x27123Bad-Name\x27);" := by
  refine ⟨by decide, rfl, by decide, rfl⟩

/-- C5: after any sync run that reaches materialization, the files under
the authors directory are exactly one entry file per author key of the
fetched author registry — whatever was there before (e.g. a removed
author's stale module) is gone. -/
theorem author_dir_reflects_snapshot (reg : BlockRegistry)
    (areg : AuthorNamespaceRegistry) (root : FsPath) (fs : Fs) (t : String)
    (p : FsPath) (hreg : reg ≠ []) (hp : underAuthors root p = true) :
    ((∃ c, (p, c) ∈ (syncModel reg areg (some root) fs t).fs) ↔
      ∃ a ∈ areg.map Prod.fst, p = authorEntryPath root a) := by
  have hlen : ¬(reg.length = 0) := (not_congr List.length_eq_zero).mpr hreg
  have hfs : (syncModel reg areg (some root) fs t).fs =
      (generateAuthorEntryFilesFS root areg t t
        (generateNamedExportsFS root reg areg t t fs).1).1 := by
    unfold syncModel
    rw [if_neg hlen]
  rw [hfs]
  simp only [generateAuthorEntryFilesFS]
  rw [mem_foldl_write]
  refine or_iff_right ?_
  rintro ⟨c, hc⟩
  rw [List.mem_filter] at hc
  have h2 := hc.2
  simp only [hp, Bool.not_true] at h2
  exact absurd h2 (by simp)

/-- Witness for C5: a prior run left a stale `bob` module; a run whose
author registry holds only `alice` leaves no file for `bob` on disk. -/
theorem author_dir_reflects_snapshot_witness :
    ¬ ∃ c, ((["mext-block", "src", "authors", "bob", "index.ts"] : FsPath), c) ∈
      (syncModel exReg exARegAlice (some ["mext-block"]) exStaleBobFs "T").fs := by
  intro hex
  have h := (author_dir_reflects_snapshot exReg exARegAlice ["mext-block"]
    exStaleBobFs "T" ["mext-block", "src", "authors", "bob", "index.ts"]
    (by decide) (by decide)).mp hex
  revert h
  decide

theorem gen_named_events (root : FsPath) (reg : BlockRegistry)
    (areg : AuthorNamespaceRegistry) (t : String) (fs : Fs) :
    (generateNamedExportsFS root reg areg t t fs).2 =
      WriteEvent.writeGlobalExports ::
        (if patchNeeded root reg areg t fs then [WriteEvent.patchEntryPoint] else []) := by
  have hp : patchNeeded root reg areg t fs =
      (match readFile (writeFileSync fs (namedExportsPath root)
          (namedExportsContent reg areg t t)) (indexPath root) with
        | none => false
        | some c => !containsSub exportNeedle.data c.data) := rfl
  simp only [generateNamedExportsFS]
  rw [hp]
  cases hread : readFile (writeFileSync fs (namedExportsPath root)
      (namedExportsContent reg areg t t)) (indexPath root) with
  | none => rfl
  | some c =>
    by_cases hc : containsSub exportNeedle.data c.data = true
    · simp [hc]
    · simp [hc]

/-- C6 (amended): in every run that reaches materialization the write
events happen in the fixed order: global exports file first, then the
entry-point patch (when needed), then the authors-directory purge, then
the author entry files in registry order. -/
theorem write_order_fixed (reg : BlockRegistry) (areg : AuthorNamespaceRegistry)
    (root : FsPath) (fs : Fs) (t : String) (hreg : reg ≠ []) :
    (syncModel reg areg (some root) fs t).events =
      WriteEvent.writeGlobalExports ::
        ((if patchNeeded root reg areg t fs then [WriteEvent.patchEntryPoint] else []) ++
          WriteEvent.purgeAuthorsDir ::
            areg.map (fun p => WriteEvent.writeAuthorEntry p.1)) := by
  have hlen : ¬(reg.length = 0) := (not_congr List.length_eq_zero).mpr hreg
  have hev : (syncModel reg areg (some root) fs t).events =
      (generateNamedExportsFS root reg areg t t fs).2 ++
        (generateAuthorEntryFilesFS root areg t t
          (generateNamedExportsFS root reg areg t t fs).1).2 := by
    unfold syncModel
    rw [if_neg hlen]
  have hev2 : (generateAuthorEntryFilesFS root areg t t
      (generateNamedExportsFS root reg areg t t fs).1).2 =
      WriteEvent.purgeAuthorsDir ::
        areg.map (fun p => WriteEvent.writeAuthorEntry p.1) := rfl
  rw [hev, hev2, gen_named_events]
  rfl

/-- Witness for C6's amended order at a concrete snapshot. -/
theorem write_order_fixed_witness :
    (syncModel exReg exARegAlice (some ["mext-block"]) [] "T").events =
      WriteEvent.writeGlobalExports ::
        ((if patchNeeded ["mext-block"] exReg exARegAlice "T" [] then
            [WriteEvent.patchEntryPoint] else []) ++
          WriteEvent.purgeAuthorsDir ::
            exARegAlice.map (fun p => WriteEvent.writeAuthorEntry p.1)) :=
  write_order_fixed exReg exARegAlice ["mext-block"] [] "T" (by decide)

/-- Counterexample to C6 as stated: at a concrete snapshot the first
write is the global exports file, not the authors-directory purge the
spec places first — the actual order is global file, purge, author
files. -/
theorem write_order_cex :
    (syncModel exReg exARegAlice (some ["mext-block"]) [] "T").events =
      [WriteEvent.writeGlobalExports, WriteEvent.purgeAuthorsDir,
        WriteEvent.writeAuthorEntry "alice"] ∧
    (syncModel exReg exARegAlice (some ["mext-block"]) [] "T").events.head? ≠
      some WriteEvent.purgeAuthorsDir := by
  refine ⟨by decide, by decide⟩

theorem parseSQBody_escape (desc : List Char)
    (hb : '\\' ∉ desc) (hn : '\n' ∉ desc) (hr : '\r' ∉ desc) :
    parseSQBody (escapeSQ desc ++ ['\'']) = some desc := by
  induction desc with
  | nil => rfl
  | cons c r ih =>
    have hb' : '\\' ∉ r := fun hx => hb (List.mem_cons_of_mem _ hx)
    have hn' : '\n' ∉ r := fun hx => hn (List.mem_cons_of_mem _ hx)
    have hr' : '\r' ∉ r := fun hx => hr (List.mem_cons_of_mem _ hx)
    have hcb : c ≠ '\\' := fun hx => hb (hx ▸ List.mem_cons_self _ _)
    have hcn : c ≠ '\n' := fun hx => hn (hx ▸ List.mem_cons_self _ _)
    have hcr : c ≠ '\r' := fun hx => hr (hx ▸ List.mem_cons_self _ _)
    by_cases hq : c = '\''
    · subst hq
      rw [show escapeSQ ('\'' :: r) = '\\' :: '\'' :: escapeSQ r from by
        simp [escapeSQ]]
      rw [List.cons_append, List.cons_append]
      rw [show parseSQBody ('\\' :: '\'' :: (escapeSQ r ++ ['\''])) =
          (parseSQBody (escapeSQ r ++ ['\''])).map (fun u => unescChar '\'' :: u) from by
        simp [parseSQBody]]
      rw [ih hb' hn' hr']
      rw [show unescChar '\'' = '\'' from by decide]
      rfl
    · rw [show escapeSQ (c :: r) = c :: escapeSQ r from by simp [escapeSQ, hq]]
      cases hsplit : escapeSQ r ++ ['\''] with
      | nil => exact absurd hsplit (by simp)
      | cons d rest2 =>
        rw [List.cons_append, hsplit]
        rw [show parseSQBody (c :: d :: rest2) =
            (parseSQBody (d :: rest2)).map (fun u => c :: u) from by
          simp [parseSQBody, hq, hcb, hcn, hcr]]
        rw [← hsplit, ih hb' hn' hr']
        rfl

/-- C7 (amended): for a description with no backslash and no raw line
terminator, the generated single-quoted literal (open quote, escaped
description, close quote) parses back, under TypeScript string-literal
semantics, to exactly the original description. -/
theorem description_roundtrip (desc : List Char)
    (hb : '\\' ∉ desc) (hn : '\n' ∉ desc) (hr : '\r' ∉ desc) :
    parseSQLit ('\'' :: (escapeSQ desc ++ ['\''])) = some desc := by
  have hlit : parseSQLit ('\'' :: (escapeSQ desc ++ ['\''])) =
      parseSQBody (escapeSQ desc ++ ['\'']) := by
    simp [parseSQLit]
  rw [hlit]
  exact parseSQBody_escape desc hb hn hr

/-- A description from the spec's escaping test. -/
def exItsDesc : List Char := ("It\x27s a \"test\" block").data

/-- Witness for C7's amended round-trip at the spec's example
description. -/
theorem description_roundtrip_witness :
    parseSQLit ('\'' :: (escapeSQ exItsDesc ++ ['\''])) = some exItsDesc :=
  description_roundtrip exItsDesc (by decide) (by decide) (by decide)

/-- Counterexample to C7 as stated: a description that contains a single
quote but also ends in a backslash does not round-trip — the escaped
form ends in a backslash that swallows the closing quote, so the
generated literal does not parse back to the original text. -/
theorem description_roundtrip_cex :
    '\'' ∈ (['\'', '\\'] : List Char) ∧
    parseSQLit ('\'' :: (escapeSQ ['\'', '\\'] ++ ['\''])) ≠ some ['\'', '\\'] := by
  refine ⟨by decide, by decide⟩
